import Mathlib

/-!
Shallow embedding of the Bot class of src/module/bot.js (bot-express).
The parameter confirmation machinery is modelled as pure functions over an
explicit Context state.  JavaScript values that flow through the store are
modelled by the inductive JsVal; thrown JavaScript exceptions are modelled by
JsErr (the ename field is the JavaScript error object name, none when a bare
string was thrown, as the source does in collect).
-/

namespace BotExpress

/-- JavaScript value as it flows through the confirmed store, parser inputs
and outputs.  Objects other than arrays are not needed by the confirmed
store in the verified operations. -/
inductive JsVal where
  | vundef
  | vnull
  | vbool (b : Bool)
  | vnum (n : Int)
  | vstr (s : String)
  | varr (xs : List JsVal)
deriving Repr

/-- Structural equality on JsVal. -/
def JsVal.beq : JsVal → JsVal → Bool
  | .vundef, .vundef => true
  | .vnull, .vnull => true
  | .vbool a, .vbool b => a == b
  | .vnum a, .vnum b => a == b
  | .vstr a, .vstr b => a == b
  | .varr a, .varr b => go a b
  | _, _ => false
where
  go : List JsVal → List JsVal → Bool
    | [], [] => true
    | x :: xs, y :: ys => JsVal.beq x y && go xs ys
    | _, _ => false

/-- A thrown JavaScript exception: ename is the error name (some "Error" for
new Error(...)), none when a plain string was thrown. -/
structure JsErr where
  ename : Option String
  msg : String
deriving Repr, DecidableEq

/-- Field values appearing inside parameter definitions where the source
inspects typeof and calls toString: strings, numbers, booleans, functions
(carrying their source text) and generic plain objects. -/
inductive FVal where
  | fstr (s : String)
  | fnum (n : Int)
  | fbool (b : Bool)
  | ffun (src : String)
  | fobj
deriving Repr, DecidableEq

/-- JavaScript truthiness of an FVal. -/
def FVal.truthy : FVal → Bool
  | .fstr s => !(s == "")
  | .fnum n => !(n == 0)
  | .fbool b => b
  | .ffun _ => true
  | .fobj => true

/-- JavaScript v.toString() on an FVal: a function yields its source text. -/
def FVal.toStr : FVal → String
  | .fstr s => s
  | .fnum n => toString n
  | .fbool b => if b then "true" else "false"
  | .ffun src => src
  | .fobj => "[object Object]"

/-- Outcome of invoking a skill supplied parser function: the value it
accepts, a rejection (a thrown new Error, whose name is "Error"), or a crash
(a thrown error of another name). -/
inductive ParseResult where
  | accept (v : JsVal)
  | reject (m : String)
  | crash (ename : String) (m : String)

/-- Policy object handed to a builtin parser (bot.js lines 388-399).  Fields
other than parameter_name pass through untouched. -/
structure Policy where
  parameter_name : Option String := none
  rest : List (String × JsVal) := []

/-- The truthy shapes the source distinguishes for the parser field of a
parameter definition (bot.js lines 373-403): a function (kept with its source
text for the change log), a builtin parser name, an object with an optional
type and policy, or any other truthy value (dispatched to the invalid-parser
error).  A falsy parser field is modelled as the field being absent. -/
inductive ParserSpec where
  | func (src : String) (f : JsVal → ParseResult)
  | builtinName (s : String)
  | pobj (ptype : Option String) (policy : Option Policy)
  | invalid (v : FVal)

/-- The list attribute of a parameter definition (bot.js lines 422-439):
falsy (scalar parameter), the boolean true, a truthy object with an optional
order field, or a truthy value of any other typeof (which add_parameter
rejects).  A non-string order field behaves as an absent one, so it is
modelled as none. -/
inductive ListAttr where
  | falsy
  | btrue
  | lobj (order : Option String)
  | other
deriving Repr, DecidableEq

/-- The fields of a parameter definition that the verified operations read.
A container entry in the source is a plain object; presence of a field is an
Option here, and a falsy parser field is modelled as parser = none. -/
structure ParamCore where
  message : Option FVal := none
  message_to_confirm : Option FVal := none
  condition : Option FVal := none
  parser : Option ParserSpec := none
  reaction : Option FVal := none
  list : ListAttr := .falsy

/-- A top level parameter definition: its core fields plus the optional
sub_parameter container.  get_parameter only ever dereferences sub_parameter
through a top level container entry (bot.js line 290), so one level of
nesting is exact for every operation of the class. -/
structure ParamDef extends ParamCore where
  sub_parameter : Option (List (String × ParamCore)) := none

/-- The parts of the skill object the Bot class reads: the three top level
parameter containers (undefined containers are none), the conventionally
named parse_NAME methods and the names having a reaction_NAME method. -/
structure Skill where
  required_parameter : Option (List (String × ParamDef)) := none
  optional_parameter : Option (List (String × ParamDef)) := none
  dynamic_parameter : Option (List (String × ParamDef)) := none
  parse_methods : List (String × (JsVal → ParseResult)) := []
  reaction_methods : List String := []

/-- context.previous: histories of committed parameter names, newest first
(the message history is owned by the messenger plumbing and not modelled). -/
structure Previous where
  confirmed : List String := []
  processed : List String := []

/-- A record of the parameter change log, {type, name, param}. -/
structure LogParam where
  message : Option FVal := none
  message_to_confirm : Option FVal := none
  condition : Option FVal := none
  parser : Option FVal := none
  reaction : Option FVal := none
  extra : List (String × FVal) := []
deriving Repr, DecidableEq

structure LogEntry where
  type : String
  name : String
  param : LogParam
deriving Repr, DecidableEq

/-- The intent object handed to switch_skill; only its name field is
inspected by the Bot class. -/
structure Intent where
  name : Option JsVal := none

/-- context._parent_parameter: the type and name of the parameter whose
sub_parameter container is being collected. -/
structure ParentRef where
  ptype : String
  pname : String

/-- The conversation context fields the Bot class reads and writes.  The
flow flags keep their source names. -/
structure Context where
  skill : Skill
  confirmed : List (String × JsVal) := []
  to_confirm : List String := []
  confirming : Option String := none
  previous : Previous := {}
  param_change_history : List LogEntry := []
  _pause : Bool := false
  _exit : Bool := false
  _init : Bool := false
  _switch_intent : Option Intent := none
  _sub_parameter : Bool := false
  _parent_parameter : Option ParentRef := none

/-- Property write on a JavaScript object modelled as an association list:
replace the first binding of the key, else append. -/
def assocSet {α : Type} (l : List (String × α)) (k : String) (v : α) :
    List (String × α) :=
  match l with
  | [] => [(k, v)]
  | (k', v') :: rest =>
    if k' == k then (k, v) :: rest else (k', v') :: assocSet rest k v

/-- Membership test of a name in an optional container, as the source writes
container && container[name] (definitions are objects, hence truthy). -/
def containerHas (c : Option (List (String × ParamDef))) (n : String) : Bool :=
  match c with
  | none => false
  | some l => (l.lookup n).isSome

/-- skill[t] for the three container names; any other string is an undefined
property of the skill. -/
def skillContainer (s : Skill) (t : String) :
    Option (List (String × ParamDef)) :=
  if t == "required_parameter" then s.required_parameter
  else if t == "optional_parameter" then s.optional_parameter
  else if t == "dynamic_parameter" then s.dynamic_parameter
  else none

/-- check_parameter_type (bot.js lines 229-241): probe required, optional and
dynamic by membership; when a sub parameter context is active every remaining
name classifies as sub_parameter, with no membership test. -/
def check_parameter_type (ctx : Context) (param_name : String) : String :=
  if containerHas ctx.skill.required_parameter param_name then
    "required_parameter"
  else if containerHas ctx.skill.optional_parameter param_name then
    "optional_parameter"
  else if containerHas ctx.skill.dynamic_parameter param_name then
    "dynamic_parameter"
  else if ctx._sub_parameter then
    "sub_parameter"
  else
    "not_applicable"

/-- The empty merge target {name, type}: resolving a name that classifies as
sub_parameter but is absent from the active sub container Object.assigns
undefined, leaving a definition with no fields. -/
def emptyCore : ParamCore := {}

/-- The message of the parameter-not-found error of get_parameter, with the
spelling of the source. -/
def paramNotFoundMsg (param_name : String) : String :=
  "Paramter: \"" ++ param_name ++ "\" not found in skill."

/-- get_parameter (bot.js lines 279-297).  Returns the classified type and
the core fields of the resolved definition (the source returns the shallow
merge {name, type, ...definition}).  In the sub_parameter case a missing
parent reference, parent container, parent entry or sub container makes the
property chain of line 290 dereference undefined, a TypeError. -/
def get_parameter (ctx : Context) (param_name : String) :
    Except JsErr (String × ParamCore) :=
  let ptype := check_parameter_type ctx param_name
  if ptype == "not_applicable" then
    .error ⟨some "Error", paramNotFoundMsg param_name⟩
  else if ptype == "sub_parameter" then
    match ctx._parent_parameter with
    | none =>
      .error ⟨some "TypeError", "Cannot read properties of undefined"⟩
    | some pp =>
      match skillContainer ctx.skill pp.ptype with
      | none =>
        .error ⟨some "TypeError", "Cannot read properties of undefined"⟩
      | some cont =>
        match cont.lookup pp.pname with
        | none =>
          .error ⟨some "TypeError", "Cannot read properties of undefined"⟩
        | some parentDef =>
          match parentDef.sub_parameter with
          | none =>
            .error ⟨some "TypeError", "Cannot read properties of undefined"⟩
          | some subc =>
            match subc.lookup param_name with
            | none => .ok (ptype, emptyCore)
            | some d => .ok (ptype, d)
  else
    match skillContainer ctx.skill ptype with
    | none => .ok (ptype, emptyCore)
    | some cont =>
      match cont.lookup param_name with
      | none => .ok (ptype, emptyCore)
      | some d => .ok (ptype, d.toParamCore)

/-- The empty value test of bot.js line 366: value === undefined ||
value === null || value === "".  Strict equality, so 0 and false are not
empty. -/
def isNoneOrEmpty : JsVal → Bool
  | .vundef => true
  | .vnull => true
  | .vstr s => s == ""
  | _ => false

/-- Outcome of parse_parameter: a returned value, a delegation to a builtin
parser of the registry (whose result is external to this class), or a thrown
exception. -/
inductive POut where
  | ok (v : JsVal)
  | builtinCall (ptype : String) (value : JsVal) (policy : Policy)
  | thrown (e : JsErr)

/-- Replace the parser of a definition. -/
def ParamDef.withParser (d : ParamDef) (p : ParserSpec) : ParamDef :=
  { d with toParamCore := { d.toParamCore with parser := some p } }

def ParamCore.withParser (d : ParamCore) (p : ParserSpec) : ParamCore :=
  { d with parser := some p }

/-- Replace the first binding of a key of an association list, leaving the
list unchanged when the key is absent. -/
def assocUpdate {α : Type} (l : List (String × α)) (k : String) (f : α → α) :
    List (String × α) :=
  match l with
  | [] => []
  | (k', v) :: rest =>
    if k' == k then (k, f v) :: rest else (k', v) :: assocUpdate rest k f

/-- Write an updated container back into the skill under its container
name. -/
def setSkillContainer (s : Skill) (t : String)
    (c : List (String × ParamDef)) : Skill :=
  if t == "required_parameter" then { s with required_parameter := some c }
  else if t == "optional_parameter" then { s with optional_parameter := some c }
  else if t == "dynamic_parameter" then { s with dynamic_parameter := some c }
  else s

/-- The object-parser branch of parse_parameter mutates parser.policy in
place (bot.js lines 396-397).  get_parameter hands out a shallow copy, so the
parser object of the returned definition is the very object stored on the
skill and the mutation lands on the stored definition.  This function applies
that store write-back at the location get_parameter resolved the name to. -/
def updateStoredParser (ctx : Context) (param_name : String)
    (p : ParserSpec) : Context :=
  let ptype := check_parameter_type ctx param_name
  if ptype == "sub_parameter" then
    match ctx._parent_parameter with
    | none => ctx
    | some pp =>
      match skillContainer ctx.skill pp.ptype with
      | none => ctx
      | some cont =>
        let cont' := assocUpdate cont pp.pname (fun parentDef =>
          match parentDef.sub_parameter with
          | none => parentDef
          | some subc =>
            { parentDef with
              sub_parameter := some
                (assocUpdate subc param_name (fun d => d.withParser p)) })
        { ctx with skill := setSkillContainer ctx.skill pp.ptype cont' }
  else
    match skillContainer ctx.skill ptype with
    | none => ctx
    | some cont =>
      { ctx with
        skill := setSkillContainer ctx.skill ptype
          (assocUpdate cont param_name (fun d => d.withParser p)) }

/-- Lift the result of a skill supplied parser function to a POut. -/
def funcOutcome : ParseResult → POut
  | .accept v => .ok v
  | .reject m => .thrown ⟨some "Error", m⟩
  | .crash ename m => .thrown ⟨some ename, m⟩

/-- parse_parameter (bot.js lines 348-404).  The parser is the parser field
of the resolved definition when truthy, else the skill method parse_NAME,
else absent; with no parser, strict fails with "Parser not found.", an empty
value fails with "Value is not set.", and any other value is returned as is.
A function parser is invoked; a string parser delegates to the builtin
registry with policy {parameter_name: name}; an object parser must carry a
type, receives parameter_name into its policy when that is absent or falsy
(mutating the stored definition, see updateStoredParser) and delegates; any
other truthy parser fails as invalid. -/
def parse_parameter (ctx : Context) (param_name : String)
    (param_value : JsVal) (strict : Bool := false) : POut × Context :=
  match get_parameter ctx param_name with
  | .error e => (.thrown e, ctx)
  | .ok (_, param) =>
    let resolved : Option ParserSpec :=
      match param.parser with
      | some p => some p
      | none =>
        match ctx.skill.parse_methods.lookup param_name with
        | some f => some (.func "" f)
        | none => none
    match resolved with
    | none =>
      if strict then (.thrown ⟨some "Error", "Parser not found."⟩, ctx)
      else if isNoneOrEmpty param_value then
        (.thrown ⟨some "Error", "Value is not set."⟩, ctx)
      else (.ok param_value, ctx)
    | some (.func _ f) => (funcOutcome (f param_value), ctx)
    | some (.builtinName s) =>
      (.builtinCall s param_value ⟨some param_name, []⟩, ctx)
    | some (.pobj ptype policy) =>
      match ptype with
      | none =>
        (.thrown ⟨some "Error",
          "Parser object is invalid. Required property: \"type\" not found."⟩,
         ctx)
      | some t =>
        let policy' : Policy :=
          match policy with
          | none => { parameter_name := some param_name }
          | some pol =>
            { pol with
              parameter_name :=
                match pol.parameter_name with
                | some s => if s == "" then some param_name else some s
                | none => some param_name }
        let ctx' := updateStoredParser ctx param_name
          (.pobj (some t) (some policy'))
        (.builtinCall t param_value policy', ctx')
    | some (.invalid _) =>
      (.thrown ⟨some "Error",
        "Parser for the parameter: " ++ param_name ++ " is invalid."⟩, ctx)

/-- The current array stored under a name, as add_parameter reads it: any
non-array (or absent) value restarts from the empty array. -/
def currentArray (confirmed : List (String × JsVal)) (n : String) :
    List JsVal :=
  match confirmed.lookup n with
  | some (.varr xs) => xs
  | _ => []

/-- The value stored under the name by the branches of bot.js lines 422-442:
the scalar overwrite, the four list branches (new front-inserts, old
appends, anything else front-inserts, over the array re-initialized when the
current value is no array), or the thrown list type error. -/
def storedValue (list : ListAttr) (confirmed : List (String × JsVal))
    (param_name : String) (param_value : JsVal) : Except JsErr JsVal :=
  match list with
  | .other =>
    .error ⟨some "Error", "list property should be boolean or object."⟩
  | .falsy => .ok param_value
  | .btrue => .ok (.varr (param_value :: currentArray confirmed param_name))
  | .lobj order =>
    if order == some "new" then
      .ok (.varr (param_value :: currentArray confirmed param_name))
    else if order == some "old" then
      .ok (.varr (currentArray confirmed param_name ++ [param_value]))
    else
      .ok (.varr (param_value :: currentArray confirmed param_name))

/-- add_parameter (bot.js lines 414-462).  Commits a value: list parameters
accumulate (unshift for true, order new and any other object, push for order
old; a truthy list of another typeof throws), scalar parameters overwrite.
Unless is_change, the name is prepended to previous.confirmed and
previous.processed.  The first occurrence of the name is removed from
to_confirm, and confirming is cleared when it equals the name. -/
def add_parameter (ctx : Context) (param_name : String) (param_value : JsVal)
    (is_change : Bool := false) : Except JsErr Context :=
  match get_parameter ctx param_name with
  | .error e => .error e
  | .ok (_, param) =>
    match storedValue param.list ctx.confirmed param_name param_value with
    | .error e => .error e
    | .ok cv =>
      .ok { ctx with
        confirmed := assocSet ctx.confirmed param_name cv
        previous :=
          if is_change then ctx.previous
          else
            { confirmed := param_name :: ctx.previous.confirmed
              processed := param_name :: ctx.previous.processed }
        to_confirm := ctx.to_confirm.erase param_name
        confirming :=
          if ctx.confirming == some param_name then none
          else ctx.confirming }

/-- What the reaction dispatcher did: skipped because a flow flag was set, a
reaction field of the definition was invoked, a conventional reaction_NAME
skill method was invoked, or nothing was configured.  Invocations record the
error and value arguments handed to the skill code; executing the skill body
is outside this class. -/
inductive ROut where
  | skipped
  | invokedDefReaction (error : Option String) (value : JsVal)
  | invokedSkillMethod (error : Option String) (value : JsVal)
  | noReaction
  | thrown (e : JsErr)

/-- react (bot.js lines 472-491): return untouched when _pause, _exit or
_init is set; otherwise resolve the parameter (the not-found error of
get_parameter propagates) and invoke the reaction field when truthy, else
the reaction_NAME skill method when present, else nothing.  A truthy
non-function reaction field is called as a function by the source and
throws a TypeError. -/
def react (ctx : Context) (error : Option String) (param_name : String)
    (param_value : JsVal) : ROut × Context :=
  if ctx._pause || ctx._exit || ctx._init then (.skipped, ctx)
  else
    match get_parameter ctx param_name with
    | .error e => (.thrown e, ctx)
    | .ok (_, param) =>
      match param.reaction with
      | some r =>
        if r.truthy then
          match r with
          | .ffun _ => (.invokedDefReaction error param_value, ctx)
          | _ =>
            (.thrown ⟨some "TypeError", "param.reaction is not a function"⟩,
             ctx)
        else if ctx.skill.reaction_methods.contains param_name then
          (.invokedSkillMethod error param_value, ctx)
        else (.noReaction, ctx)
      | none =>
        if ctx.skill.reaction_methods.contains param_name then
          (.invokedSkillMethod error param_value, ctx)
        else (.noReaction, ctx)

/-- Outcome of apply_parameter: completed (recording what react did, none
when react was not requested), delegated to an external builtin parser, or a
thrown exception. -/
inductive AOut where
  | done (r : Option ROut)
  | externalParse (ptype : String) (value : JsVal) (policy : Policy)
  | thrown (e : JsErr)

/-- The commit-then-react tail of apply_parameter (bot.js lines 330-336). -/
def commitAndReact (ctx : Context) (param_name : String) (value : JsVal)
    (parse_error : Option String) (reactFlag : Bool) : AOut × Context :=
  match add_parameter ctx param_name value false with
  | .error e => (.thrown e, ctx)
  | .ok c2 =>
    if reactFlag then
      let (r, c3) := react c2 parse_error param_name value
      (.done (some r), c3)
    else (.done none, c2)

/-- apply_parameter (bot.js lines 308-337).  When parse is requested the
parser runs first; an exception whose name is "Error" is captured as the
parse error and the original value kept, any other exception is rethrown.
add_parameter then commits unconditionally, and react runs when requested,
receiving the captured parse error. -/
def apply_parameter (ctx : Context) (param_name : String)
    (param_value : JsVal) (parse : Bool := false) (reactFlag : Bool := true) :
    AOut × Context :=
  if parse then
    match parse_parameter ctx param_name param_value false with
    | (.ok v, c) => commitAndReact c param_name v none reactFlag
    | (.builtinCall t v p, c) => (.externalParse t v p, c)
    | (.thrown e, c) =>
      if e.ename == some "Error" then
        commitAndReact c param_name param_value (some e.msg) reactFlag
      else (.thrown e, c)
  else
    commitAndReact ctx param_name param_value none reactFlag

/-- switch_skill (bot.js lines 177-185): raise _exit first, then throw
unless intent.name is a truthy string (a non-empty string); on success
record the intent as _switch_intent.  The state at the throw keeps the
raised _exit flag. -/
def switch_skill (ctx : Context) (intent : Intent) :
    Except JsErr Unit × Context :=
  let c1 := { ctx with _exit := true }
  match intent.name with
  | some (.vstr s) =>
    if s == "" then
      (.error ⟨some "Error",
        "Required parameter: 'name' for switch_skill() should be set and string."⟩,
       c1)
    else (.ok (), { c1 with _switch_intent := some intent })
  | _ =>
    (.error ⟨some "Error",
      "Required parameter: 'name' for switch_skill() should be set and string."⟩,
     c1)

/-- Truthiness of an optional field. -/
def oTruthy : Option FVal → Bool
  | some v => v.truthy
  | none => false

/-- The serialization pass of _save_param_change_log over the message pair
(bot.js lines 509-515): a function message is replaced by its source text;
otherwise a function message_to_confirm has its source text stored under
message (message_to_confirm itself is left as it is). -/
def stepMessage (p : LogParam) : LogParam :=
  if oTruthy p.message || oTruthy p.message_to_confirm then
    match p.message with
    | some (.ffun src) => { p with message := some (.fstr src) }
    | _ =>
      match p.message_to_confirm with
      | some (.ffun src) => { p with message := some (.fstr src) }
      | _ => p
  else p

/-- bot.js lines 516-520: a function condition is replaced by its source
text; a truthy non-function condition passes through. -/
def stepCondition (p : LogParam) : LogParam :=
  match p.condition with
  | some (.ffun src) => { p with condition := some (.fstr src) }
  | _ => p

/-- bot.js lines 521-525: a function parser is replaced by its source text;
a truthy non-function parser passes through. -/
def stepParser (p : LogParam) : LogParam :=
  match p.parser with
  | some (.ffun src) => { p with parser := some (.fstr src) }
  | _ => p

/-- bot.js lines 526-528: any truthy reaction is replaced by its toString,
with no function check. -/
def stepReaction (p : LogParam) : LogParam :=
  match p.reaction with
  | some v =>
    if v.truthy then { p with reaction := some (.fstr v.toStr) } else p
  | none => p

/-- The serialized copy stored by _save_param_change_log: the four passes in
the order of the source over a copy of the original. -/
def serializeLogParam (p : LogParam) : LogParam :=
  stepReaction (stepParser (stepCondition (stepMessage p)))

/-- _save_param_change_log (bot.js lines 501-535): serialize a copy of the
given definition and prepend {type, name, param} to param_change_history
(created empty when absent, which the list model subsumes). -/
def _save_param_change_log (ctx : Context) (param_type param_name : String)
    (param_orig : LogParam) : Context :=
  { ctx with
    param_change_history :=
      ⟨param_type, param_name, serializeLogParam param_orig⟩ ::
        ctx.param_change_history }

/-- The change-log view of a parser field value: a function keeps its source
text, a builtin name is its string, objects are plain objects. -/
def parserToFVal : ParserSpec → FVal
  | .func src _ => .ffun src
  | .builtinName s => .fstr s
  | .pobj _ _ => .fobj
  | .invalid v => v

/-- The change-log view of a container entry, as collect hands one to
_save_param_change_log (the sub_parameter container, not serializable, is
not modelled in the record). -/
def paramDefLogView (d : ParamDef) : LogParam :=
  { message := d.message
    message_to_confirm := d.message_to_confirm
    condition := d.condition
    parser := d.parser.map parserToFVal
    reaction := d.reaction }

/-- The argument of collect: a bare parameter name, or a container object
with its bindings in order. -/
inductive CollectArg where
  | byName (s : String)
  | byContainer (entries : List (String × ParamDef))

/-- collect (bot.js lines 544-593).  options.dedup defaults to true when
undefined or null.  A container argument must hold exactly one binding (else
a bare string is thrown); its entry is merged over required_parameter or
optional_parameter when one already holds the name, else into
dynamic_parameter (created when undefined), and the merge is recorded in the
change log.  Then, in both forms, the first occurrence of the name is
removed from to_confirm when present and dedup holds, and the name is pushed
to the front of to_confirm. -/
def collect (ctx : Context) (arg : CollectArg)
    (dedup : Option Bool := none) : Except JsErr Context :=
  let dedupOn := dedup.getD true
  match
    (match arg with
     | .byName s => Except.ok (s, ctx)
     | .byContainer entries =>
       match entries with
       | [(param_name, d)] =>
         let ctx' :=
           if containerHas ctx.skill.required_parameter param_name then
             _save_param_change_log
               { ctx with skill := { ctx.skill with
                   required_parameter := some (assocSet
                     ((ctx.skill.required_parameter).getD []) param_name d) } }
               "required_parameter" param_name (paramDefLogView d)
           else if containerHas ctx.skill.optional_parameter param_name then
             _save_param_change_log
               { ctx with skill := { ctx.skill with
                   optional_parameter := some (assocSet
                     ((ctx.skill.optional_parameter).getD []) param_name d) } }
               "optional_parameter" param_name (paramDefLogView d)
           else
             _save_param_change_log
               { ctx with skill := { ctx.skill with
                   dynamic_parameter := some (assocSet
                     ((ctx.skill.dynamic_parameter).getD []) param_name d) } }
               "dynamic_parameter" param_name (paramDefLogView d)
         Except.ok (param_name, ctx')
       | _ =>
         Except.error (⟨none,
           "Malformed parameter container object. You can pass just 1 parameter."⟩
           : JsErr))
    with
  | .error e => .error e
  | .ok (param_name, ctx') =>
    let tc :=
      if ctx'.to_confirm.contains param_name && dedupOn then
        ctx'.to_confirm.erase param_name
      else ctx'.to_confirm
    .ok { ctx' with to_confirm := param_name :: tc }

/-
Helper lemmas shared by the claim theorems.
-/

theorem lookup_assocSet {α : Type} (l : List (String × α)) (k : String)
    (v : α) : (assocSet l k v).lookup k = some v := by
  induction l with
  | nil => simp [assocSet, List.lookup]
  | cons h t ih =>
    obtain ⟨k', v'⟩ := h
    by_cases hk : k' = k
    · simp [assocSet, hk, List.lookup]
    · have h1 : (k' == k) = false := by simp [hk]
      have h2 : (k == k') = false := by simp [Ne.symm hk]
      simp [assocSet, h1, h2, List.lookup, ih]

theorem lookup_assocUpdate {α : Type} (l : List (String × α)) (k : String)
    (f : α → α) : (assocUpdate l k f).lookup k = (l.lookup k).map f := by
  induction l with
  | nil => simp [assocUpdate, List.lookup]
  | cons h t ih =>
    obtain ⟨k', v'⟩ := h
    by_cases hk : k' = k
    · simp [assocUpdate, hk, List.lookup]
    · have h1 : (k' == k) = false := by simp [hk]
      have h2 : (k == k') = false := by simp [Ne.symm hk]
      simp [assocUpdate, h1, h2, List.lookup, ih]

/-
Claim C5.
-/

/-- C5: if any of the flow flags _pause, _exit or _init is already set when
react(error, name, value) is called, react performs no skill-code invocation
and makes no state mutation: it returns without resolving the parameter or
calling any reaction, for every parameter name, including names not defined
in the skill. -/
theorem C5_react_noop_on_flags (ctx : Context) (err : Option String)
    (n : String) (v : JsVal)
    (h : (ctx._pause || ctx._exit || ctx._init) = true) :
    react ctx err n v = (.skipped, ctx) := by
  simp [react, h]

def ex5Skill : Skill := {}

/-- Witness consuming C5 at a concrete context with _pause raised and a
parameter name the skill does not define. -/
def ex5Ctx : Context := { skill := ex5Skill, _pause := true }

theorem C5_witness :
    react ex5Ctx none "ghost" .vundef = (.skipped, ex5Ctx) :=
  C5_react_noop_on_flags ex5Ctx none "ghost" .vundef rfl

/-
Claim C6.
-/

/-- The argument error message of switch_skill. -/
def switchSkillErrMsg : String :=
  "Required parameter: 'name' for switch_skill() should be set and string."

/-- C6: switch_skill(intent) first raises _exit, then fails with the
argument error unless intent.name is a non-empty string, leaving
_switch_intent untouched on failure; on success it records the intent as
_switch_intent. -/
theorem C6_switch_skill_exit_and_record (ctx : Context) (intent : Intent) :
    ((switch_skill ctx intent).2)._exit = true
  ∧ (∀ s, intent.name = some (.vstr s) → s ≠ "" →
      switch_skill ctx intent
        = (.ok (), { ctx with _exit := true, _switch_intent := some intent }))
  ∧ ((match intent.name with
      | some (.vstr s) => s == ""
      | _ => true) = true →
      switch_skill ctx intent
        = (.error ⟨some "Error", switchSkillErrMsg⟩, { ctx with _exit := true })) := by
  refine ⟨?_, ?_, ?_⟩
  · cases hn : intent.name with
    | none => simp [switch_skill, hn]
    | some v =>
      cases v
      case vstr s => by_cases hs : s = "" <;> simp [switch_skill, hn, hs]
      all_goals simp [switch_skill, hn]
  · intro s hs hne
    simp [switch_skill, hs, switchSkillErrMsg, hne]
  · intro hfail
    cases hn : intent.name with
    | none => simp [switch_skill, hn, switchSkillErrMsg]
    | some v =>
      cases v <;> simp [switch_skill, hn, switchSkillErrMsg]
      rename_i s
      rw [hn] at hfail
      simp at hfail
      simp [hfail]

def ex6Ctx : Context := { skill := {} }

/-- Witness consuming C6: the successful call with name "s" raises _exit and
records the intent, and the empty-object call fails leaving _switch_intent
unset. -/
theorem C6_witness :
    switch_skill ex6Ctx ⟨some (.vstr "s")⟩
      = (.ok (), { ex6Ctx with
          _exit := true, _switch_intent := some ⟨some (.vstr "s")⟩ })
  ∧ switch_skill ex6Ctx ⟨none⟩
      = (.error ⟨some "Error", switchSkillErrMsg⟩,
         { ex6Ctx with _exit := true }) :=
  ⟨(C6_switch_skill_exit_and_record ex6Ctx ⟨some (.vstr "s")⟩).2.1 "s" rfl
     (by decide),
   (C6_switch_skill_exit_and_record ex6Ctx ⟨none⟩).2.2 rfl⟩

/-
Claim C2.
-/

/-- A skill holding one required parameter named parent whose sub container
defines only child. -/
def ex2Skill : Skill :=
  { required_parameter := some
      [("parent", { sub_parameter := some [("child", {})] })] }

/-- A context in the middle of sub parameter collection: _sub_parameter is
raised and _parent_parameter points at parent. -/
def ex2Ctx : Context :=
  { skill := ex2Skill
    _sub_parameter := true
    _parent_parameter := some ⟨"required_parameter", "parent"⟩ }

/-- C2 counterexample: the name zzz is present in no parameter container of
the skill, not even in the active sub container, yet check_parameter_type
classifies it as sub_parameter rather than not_applicable, and get_parameter
does not fail: it resolves to an empty definition. -/
theorem C2_counterexample :
    check_parameter_type ex2Ctx "zzz" = "sub_parameter"
  ∧ check_parameter_type ex2Ctx "zzz" ≠ "not_applicable"
  ∧ get_parameter ex2Ctx "zzz" = .ok ("sub_parameter", emptyCore)
  ∧ (ex2Skill.required_parameter.getD []).lookup "zzz" = none
  ∧ (ex2Skill.optional_parameter.getD []).lookup "zzz" = none
  ∧ (ex2Skill.dynamic_parameter.getD []).lookup "zzz" = none
  ∧ (List.lookup "zzz" [("child", ({} : ParamCore))]) = none := by
  refine ⟨rfl, by decide, rfl, rfl, rfl, rfl, rfl⟩

/-- C2 amended: for a name in none of required, optional and dynamic, the
classification is not_applicable and get_parameter fails with the
parameter-not-found error only when no sub parameter context is active; when
_sub_parameter is set the classification is sub_parameter regardless of
membership in the active sub container. -/
theorem C2_amended_lookup_otherwise_not_applicable (ctx : Context)
    (n : String)
    (hr : containerHas ctx.skill.required_parameter n = false)
    (ho : containerHas ctx.skill.optional_parameter n = false)
    (hd : containerHas ctx.skill.dynamic_parameter n = false) :
    (ctx._sub_parameter = false →
      check_parameter_type ctx n = "not_applicable"
      ∧ get_parameter ctx n = .error ⟨some "Error", paramNotFoundMsg n⟩)
  ∧ (ctx._sub_parameter = true →
      check_parameter_type ctx n = "sub_parameter") := by
  constructor
  · intro hsub
    have hc : check_parameter_type ctx n = "not_applicable" := by
      simp [check_parameter_type, hr, ho, hd, hsub]
    exact ⟨hc, by simp [get_parameter, hc]⟩
  · intro hsub
    simp [check_parameter_type, hr, ho, hd, hsub]

def ex2bCtx : Context := { skill := {} }

/-- Witness consuming C2 at a concrete context with no sub parameter
context: an unknown name classifies as not_applicable and resolution
fails. -/
theorem C2_witness :
    check_parameter_type ex2bCtx "zzz" = "not_applicable"
  ∧ get_parameter ex2bCtx "zzz" = .error ⟨some "Error", paramNotFoundMsg "zzz"⟩ :=
  (C2_amended_lookup_otherwise_not_applicable ex2bCtx "zzz" rfl rfl rfl).1 rfl

/-
Claim C4.
-/

/-- C4: parse_parameter resolves the parser as the parameter definition's
parser field if present, else the skill's parse_NAME method if present, else
no parser; with no parser it fails with "Parser not found." when strict,
fails with "Value is not set." when the value is none or empty, and
otherwise returns the raw value unchanged. -/
theorem C4_parse_parameter_resolution (ctx : Context) (n : String)
    (v : JsVal) (strict : Bool) (t : String) (param : ParamCore)
    (hget : get_parameter ctx n = .ok (t, param)) :
    (∀ src f, param.parser = some (.func src f) →
      parse_parameter ctx n v strict = (funcOutcome (f v), ctx))
  ∧ (∀ b, param.parser = some (.builtinName b) →
      parse_parameter ctx n v strict = (.builtinCall b v ⟨some n, []⟩, ctx))
  ∧ (∀ f, param.parser = none →
      ctx.skill.parse_methods.lookup n = some f →
      parse_parameter ctx n v strict = (funcOutcome (f v), ctx))
  ∧ (param.parser = none → ctx.skill.parse_methods.lookup n = none →
      (strict = true →
        parse_parameter ctx n v strict
          = (.thrown ⟨some "Error", "Parser not found."⟩, ctx))
      ∧ (strict = false → isNoneOrEmpty v = true →
        parse_parameter ctx n v strict
          = (.thrown ⟨some "Error", "Value is not set."⟩, ctx))
      ∧ (strict = false → isNoneOrEmpty v = false →
        parse_parameter ctx n v strict = (.ok v, ctx))) := by
  refine ⟨?_, ?_, ?_, ?_⟩
  · intro src f hp
    simp [parse_parameter, hget, hp]
  · intro b hp
    simp [parse_parameter, hget, hp]
  · intro f hp hm
    simp [parse_parameter, hget, hp, hm]
  · intro hp hm
    refine ⟨?_, ?_, ?_⟩
    · intro hs
      simp [parse_parameter, hget, hp, hm, hs]
    · intro hs he
      simp [parse_parameter, hget, hp, hm, hs, he]
    · intro hs he
      simp [parse_parameter, hget, hp, hm, hs, he]

/-- A skill whose q parameter has no parser anywhere but r has the
conventional parse_r method. -/
def ex4Skill : Skill :=
  { required_parameter := some [("q", {}), ("r", {})]
    parse_methods := [("r", fun w => .accept w)] }

def ex4Ctx : Context := { skill := ex4Skill }

/-- Witness consuming C4 at a concrete context: with no parser configured a
non-empty raw value passes through unchanged, an empty value fails with
"Value is not set.", strict fails with "Parser not found.", and the
conventional skill method is picked up for r. -/
theorem C4_witness :
    parse_parameter ex4Ctx "q" (.vstr "hello") false = (.ok (.vstr "hello"), ex4Ctx)
  ∧ parse_parameter ex4Ctx "q" (.vstr "") false
      = (.thrown ⟨some "Error", "Value is not set."⟩, ex4Ctx)
  ∧ parse_parameter ex4Ctx "q" (.vstr "hello") true
      = (.thrown ⟨some "Error", "Parser not found."⟩, ex4Ctx)
  ∧ parse_parameter ex4Ctx "r" (.vstr "x") false
      = (funcOutcome (ParseResult.accept (.vstr "x")), ex4Ctx) :=
  ⟨((C4_parse_parameter_resolution ex4Ctx "q" (.vstr "hello") false
      "required_parameter" {} rfl).2.2.2 rfl rfl).2.2 rfl rfl,
   ((C4_parse_parameter_resolution ex4Ctx "q" (.vstr "") false
      "required_parameter" {} rfl).2.2.2 rfl rfl).2.1 rfl rfl,
   ((C4_parse_parameter_resolution ex4Ctx "q" (.vstr "hello") true
      "required_parameter" {} rfl).2.2.2 rfl rfl).1 rfl,
   (C4_parse_parameter_resolution ex4Ctx "r" (.vstr "x") false
      "required_parameter" {} rfl).2.2.1 (fun w => .accept w) rfl rfl⟩

/-
Claim C3.
-/

/-- The error thrown by add_parameter for a truthy list attribute that is
neither boolean nor object. -/
def listTypeErr : JsErr :=
  ⟨some "Error", "list property should be boolean or object."⟩

/-- The context add_parameter builds on success with is_change false, once
the stored value cv for the name has been computed: the commit bookkeeping
of bot.js lines 444-461. -/
def commitCtx (ctx : Context) (n : String) (cv : JsVal) : Context :=
  { ctx with
    confirmed := assocSet ctx.confirmed n cv
    to_confirm := ctx.to_confirm.erase n
    confirming := if ctx.confirming == some n then none else ctx.confirming
    previous := { confirmed := n :: ctx.previous.confirmed
                  processed := n :: ctx.previous.processed } }

/-- A skill whose parameter p carries a truthy list attribute of another
typeof, such as the number 1 or a string. -/
def ex3Skill : Skill :=
  { required_parameter := some [("p", { list := ListAttr.other })] }

def ex3Ctx : Context := { skill := ex3Skill, to_confirm := ["p"] }

/-- C3 counterexample: for the truthy non-boolean non-object list value the
claim predicts a front insert, but add_parameter throws the list type error
and commits nothing: no context is produced. -/
theorem C3_counterexample :
    add_parameter ex3Ctx "p" (.vstr "v") false = .error listTypeErr
  ∧ ¬ ∃ c, add_parameter ex3Ctx "p" (.vstr "v") false = .ok c := by
  refine ⟨rfl, ?_⟩
  rintro ⟨c, hc⟩
  rw [show add_parameter ex3Ctx "p" (.vstr "v") false = .error listTypeErr
      from rfl] at hc
  exact Except.noConfusion hc

/-- C3 amended: committing a value to a list-typed parameter initializes the
stored sequence from the empty one when absent, front-inserts when list is
the boolean true or an object whose order is not "old" (order "new" and any
other object alike), appends at the back when order is "old", and throws the
list type error for a truthy list value that is neither boolean nor object.
Front inserts leave the most recent value at index 0 and order "old" leaves
it at the last index. -/
theorem C3_amended_list_commit (ctx : Context) (n : String) (v : JsVal)
    (t : String) (param : ParamCore)
    (hget : get_parameter ctx n = .ok (t, param)) :
    ((param.list = .btrue ∨ ∃ o, param.list = .lobj o ∧ o ≠ some "old") →
      ∃ c, add_parameter ctx n v false = .ok c
        ∧ c.confirmed.lookup n
            = some (.varr (v :: currentArray ctx.confirmed n)))
  ∧ (param.list = .lobj (some "old") →
      ∃ c, add_parameter ctx n v false = .ok c
        ∧ c.confirmed.lookup n
            = some (.varr (currentArray ctx.confirmed n ++ [v])))
  ∧ (param.list = .other →
      add_parameter ctx n v false = .error listTypeErr) := by
  refine ⟨?_, ?_, ?_⟩
  · rintro (hl | ⟨o, hl, ho⟩)
    · refine ⟨commitCtx ctx n (.varr (v :: currentArray ctx.confirmed n)),
        ?_, ?_⟩
      · simp [add_parameter, storedValue, hget, hl, commitCtx]
      · simp [commitCtx, lookup_assocSet]
    · have hne : (o == some "old") = false := by
        cases o with
        | none => rfl
        | some s =>
          have : ¬ s = "old" := fun h => ho (by rw [h])
          simp [this]
      refine ⟨commitCtx ctx n (.varr (v :: currentArray ctx.confirmed n)),
        ?_, ?_⟩
      · by_cases hnew : o = some "new"
        · simp [add_parameter, storedValue, hget, hl, hnew, commitCtx]
        · simp [add_parameter, storedValue, hget, hl, hne, hnew, commitCtx]
      · simp [commitCtx, lookup_assocSet]
  · intro hl
    refine ⟨commitCtx ctx n (.varr (currentArray ctx.confirmed n ++ [v])),
      ?_, ?_⟩
    · simp [add_parameter, storedValue, hget, hl, commitCtx]
    · simp [commitCtx, lookup_assocSet]
  · intro hl
    simp [add_parameter, storedValue, hget, hl, listTypeErr]

/-- A skill with a list order new parameter and a list order old
parameter. -/
def ex3bSkill : Skill :=
  { required_parameter := some
      [("q", { list := ListAttr.lobj (some "new") }),
       ("r", { list := ListAttr.lobj (some "old") })] }

def ex3bCtx : Context :=
  { skill := ex3bSkill
    confirmed := [("q", .varr [.vnum 1]), ("r", .varr [.vnum 1])] }

/-- Witness consuming C3 at a concrete context holding one earlier value:
order "new" front-inserts the new value, order "old" appends it. -/
theorem C3_witness :
    (∃ c, add_parameter ex3bCtx "q" (.vnum 2) false = .ok c
      ∧ c.confirmed.lookup "q" = some (.varr [.vnum 2, .vnum 1]))
  ∧ (∃ c, add_parameter ex3bCtx "r" (.vnum 2) false = .ok c
      ∧ c.confirmed.lookup "r" = some (.varr [.vnum 1, .vnum 2])) :=
  ⟨(C3_amended_list_commit ex3bCtx "q" (.vnum 2) "required_parameter"
      { list := ListAttr.lobj (some "new") } rfl).1
      (Or.inr ⟨some "new", rfl, by decide⟩),
   (C3_amended_list_commit ex3bCtx "r" (.vnum 2) "required_parameter"
      { list := ListAttr.lobj (some "old") } rfl).2.1 rfl⟩

/-
Claim C8.
-/

/-- Every successful add_parameter produces exactly the commit bookkeeping
over some stored value: the confirmed store gains a binding for the name,
the first occurrence of the name leaves to_confirm, confirming is cleared
when it named this parameter, and the previous histories grow only when
is_change is false. -/
theorem add_parameter_ok_shape (ctx : Context) (n : String) (v : JsVal)
    (ic : Bool) (c : Context) (h : add_parameter ctx n v ic = .ok c) :
    ∃ cv, c = { ctx with
      confirmed := assocSet ctx.confirmed n cv
      to_confirm := ctx.to_confirm.erase n
      confirming := if ctx.confirming == some n then none else ctx.confirming
      previous := if ic then ctx.previous else
        { confirmed := n :: ctx.previous.confirmed
          processed := n :: ctx.previous.processed } } := by
  rcases hg : get_parameter ctx n with e | tp
  · simp only [add_parameter, hg] at h
    exact absurd h (by simp)
  · obtain ⟨t, param⟩ := tp
    rcases hsv : storedValue param.list ctx.confirmed n v with e | cv
    · simp only [add_parameter, hg, hsv] at h
      exact absurd h (by simp)
    · simp only [add_parameter, hg, hsv, Except.ok.injEq] at h
      exact ⟨cv, h.symm⟩

/-- C8: every commit via add_parameter(name, value, is_change) removes the
name from to_confirm (its first occurrence, hence the name entirely under
the no-duplicates invariant) and clears confirming exactly when it equals
the name, regardless of is_change; and it prepends the name to both
previous.confirmed and previous.processed exactly when is_change is
false. -/
theorem C8_add_parameter_bookkeeping (ctx : Context) (n : String)
    (v : JsVal) (ic : Bool) (c : Context)
    (h : add_parameter ctx n v ic = .ok c) :
    c.to_confirm = ctx.to_confirm.erase n
  ∧ (ctx.to_confirm.count n ≤ 1 → n ∉ c.to_confirm)
  ∧ (ctx.confirming = some n → c.confirming = none)
  ∧ (ctx.confirming ≠ some n → c.confirming = ctx.confirming)
  ∧ (ic = false →
      c.previous.confirmed = n :: ctx.previous.confirmed
      ∧ c.previous.processed = n :: ctx.previous.processed)
  ∧ (ic = true → c.previous = ctx.previous) := by
  obtain ⟨cv, rfl⟩ := add_parameter_ok_shape ctx n v ic c h
  refine ⟨rfl, ?_, ?_, ?_, ?_, ?_⟩
  · intro hcount
    have h1 : (ctx.to_confirm.erase n).count n = ctx.to_confirm.count n - 1 :=
      List.count_erase_self n ctx.to_confirm
    have h2 : (ctx.to_confirm.erase n).count n = 0 := by omega
    exact List.not_mem_of_count_eq_zero h2
  · intro hc
    simp [hc]
  · intro hc
    have : (ctx.confirming == some n) = false := by
      simpa using hc
    simp [this]
  · intro hic
    simp [hic]
  · intro hic
    simp [hic]

def ex8Skill : Skill := { required_parameter := some [("p", {})] }

def ex8Ctx : Context :=
  { skill := ex8Skill, to_confirm := ["p"], confirming := some "p" }

/-- The context produced by the witness commit below. -/
def ex8c : Context :=
  { skill := ex8Skill
    confirmed := [("p", .vstr "v")]
    to_confirm := []
    confirming := none
    previous := { confirmed := ["p"], processed := ["p"] } }

/-- Witness consuming C8 at a concrete commit. -/
theorem C8_witness :
    ex8c.to_confirm = ex8Ctx.to_confirm.erase "p"
  ∧ (ex8Ctx.to_confirm.count "p" ≤ 1 → "p" ∉ ex8c.to_confirm)
  ∧ (ex8Ctx.confirming = some "p" → ex8c.confirming = none)
  ∧ (ex8Ctx.confirming ≠ some "p" → ex8c.confirming = ex8Ctx.confirming)
  ∧ (false = false →
      ex8c.previous.confirmed = "p" :: ex8Ctx.previous.confirmed
      ∧ ex8c.previous.processed = "p" :: ex8Ctx.previous.processed)
  ∧ (false = true → ex8c.previous = ex8Ctx.previous) :=
  C8_add_parameter_bookkeeping ex8Ctx "p" (.vstr "v") false ex8c rfl

/-
Claim C7.
-/

/-- C7: under the no-duplicates invariant on to_confirm, calling collect
with a bare name twice under the default dedup option leaves to_confirm
containing the name exactly once, at the front: an earlier occurrence is
removed before the front insert, so the second call changes nothing. -/
theorem C7_collect_dedup_idempotent (ctx : Context) (x : String)
    (h : ctx.to_confirm.count x ≤ 1) :
    ∃ c1 c2, collect ctx (.byName x) none = .ok c1
      ∧ collect c1 (.byName x) none = .ok c2
      ∧ c1.to_confirm.head? = some x
      ∧ c1.to_confirm.count x = 1
      ∧ c2.to_confirm.head? = some x
      ∧ c2.to_confirm.count x = 1 := by
  by_cases hx : x ∈ ctx.to_confirm
  · have hcontains : ctx.to_confirm.contains x = true := by simpa using hx
    have hpos : 1 ≤ ctx.to_confirm.count x := List.one_le_count_iff.mpr hx
    have hzero : (ctx.to_confirm.erase x).count x = 0 := by
      have := List.count_erase_self x ctx.to_confirm
      omega
    refine ⟨{ ctx with to_confirm := x :: ctx.to_confirm.erase x },
            { ctx with to_confirm := x :: ctx.to_confirm.erase x },
            ?_, ?_, rfl, ?_, rfl, ?_⟩
    · simp [collect, hcontains, hx]
    · simp [collect, List.erase_cons_head]
    · simp [hzero]
    · simp [hzero]
  · have hcontains : ctx.to_confirm.contains x = false := by simpa using hx
    have hzero : ctx.to_confirm.count x = 0 := List.count_eq_zero.mpr hx
    refine ⟨{ ctx with to_confirm := x :: ctx.to_confirm },
            { ctx with to_confirm := x :: ctx.to_confirm },
            ?_, ?_, rfl, ?_, rfl, ?_⟩
    · simp [collect, hcontains, hx]
    · simp [collect, List.erase_cons_head]
    · simp [hzero]
    · simp [hzero]

def ex7Ctx : Context := { skill := {}, to_confirm := ["a", "x"] }

/-- Witness consuming C7 at a concrete queue already holding x once behind
another name. -/
theorem C7_witness :
    ∃ c1 c2, collect ex7Ctx (.byName "x") none = .ok c1
      ∧ collect c1 (.byName "x") none = .ok c2
      ∧ c1.to_confirm.head? = some "x"
      ∧ c1.to_confirm.count "x" = 1
      ∧ c2.to_confirm.head? = some "x"
      ∧ c2.to_confirm.count "x" = 1 :=
  C7_collect_dedup_idempotent ex7Ctx "x" (by decide)

/-
Claim C9.
-/

theorem stepMessage_preserves (p : LogParam) :
    (stepMessage p).condition = p.condition
  ∧ (stepMessage p).parser = p.parser
  ∧ (stepMessage p).reaction = p.reaction
  ∧ (stepMessage p).message_to_confirm = p.message_to_confirm
  ∧ (stepMessage p).extra = p.extra := by
  unfold stepMessage
  repeat' split
  all_goals simp

theorem stepCondition_preserves (p : LogParam) :
    (stepCondition p).message = p.message
  ∧ (stepCondition p).parser = p.parser
  ∧ (stepCondition p).reaction = p.reaction
  ∧ (stepCondition p).message_to_confirm = p.message_to_confirm
  ∧ (stepCondition p).extra = p.extra := by
  unfold stepCondition
  repeat' split
  all_goals simp

theorem stepParser_preserves (p : LogParam) :
    (stepParser p).message = p.message
  ∧ (stepParser p).condition = p.condition
  ∧ (stepParser p).reaction = p.reaction
  ∧ (stepParser p).message_to_confirm = p.message_to_confirm
  ∧ (stepParser p).extra = p.extra := by
  unfold stepParser
  repeat' split
  all_goals simp

theorem stepReaction_preserves (p : LogParam) :
    (stepReaction p).message = p.message
  ∧ (stepReaction p).condition = p.condition
  ∧ (stepReaction p).parser = p.parser
  ∧ (stepReaction p).message_to_confirm = p.message_to_confirm
  ∧ (stepReaction p).extra = p.extra := by
  unfold stepReaction
  repeat' split
  all_goals simp

theorem stepCondition_of_fun (p : LogParam) (s : String)
    (h : p.condition = some (.ffun s)) :
    (stepCondition p).condition = some (.fstr s) := by
  simp [stepCondition, h]

theorem stepCondition_of_not_fun (p : LogParam)
    (h : ∀ s, p.condition ≠ some (.ffun s)) :
    (stepCondition p).condition = p.condition := by
  unfold stepCondition
  cases hc : p.condition with
  | none => simp [hc]
  | some v => cases v <;> simp_all

theorem stepParser_of_fun (p : LogParam) (s : String)
    (h : p.parser = some (.ffun s)) :
    (stepParser p).parser = some (.fstr s) := by
  simp [stepParser, h]

theorem stepParser_of_not_fun (p : LogParam)
    (h : ∀ s, p.parser ≠ some (.ffun s)) :
    (stepParser p).parser = p.parser := by
  unfold stepParser
  cases hc : p.parser with
  | none => simp [hc]
  | some v => cases v <;> simp_all

theorem stepMessage_of_fun (p : LogParam) (s : String)
    (h : p.message = some (.ffun s)) :
    (stepMessage p).message = some (.fstr s) := by
  simp [stepMessage, h, oTruthy, FVal.truthy]

theorem stepMessage_of_mtc (p : LogParam) (s : String)
    (hm : ∀ u, p.message ≠ some (.ffun u))
    (hc : p.message_to_confirm = some (.ffun s)) :
    (stepMessage p).message = some (.fstr s) := by
  unfold stepMessage
  rw [hc]
  have hg : (oTruthy p.message || oTruthy (some (.ffun s))) = true := by
    simp [oTruthy, FVal.truthy]
  rw [hg]
  cases hmm : p.message with
  | none => simp
  | some v => cases v <;> simp_all

theorem stepReaction_of_truthy (p : LogParam) (v : FVal)
    (h : p.reaction = some v) (ht : v.truthy = true) :
    (stepReaction p).reaction = some (.fstr v.toStr) := by
  simp [stepReaction, h, ht]

/-- C9 counterexample example context and record: a truthy non-function
reaction field, the number 42. -/
def ex9Ctx : Context := { skill := {} }

def ex9Orig : LogParam := { reaction := some (.fnum 42) }

/-- C9 counterexample: the reaction field of the original definition is the
number 42, not a function, yet the stored record carries the string "42":
the source calls toString on any truthy reaction with no function check, so
a non-function field does not pass through unchanged. -/
theorem C9_counterexample :
    (_save_param_change_log ex9Ctx "required_parameter" "p" ex9Orig
      ).param_change_history
      = [⟨"required_parameter", "p", { reaction := some (.fstr "42") }⟩]
  ∧ ex9Orig.reaction = some (.fnum 42)
  ∧ (∀ s, ex9Orig.reaction ≠ some (.ffun s))
  ∧ ({ reaction := some (.fstr "42") } : LogParam).reaction
      ≠ ex9Orig.reaction := by
  refine ⟨rfl, rfl, ?_, by decide⟩
  intro s h
  simp [ex9Orig] at h

/-- C9 amended: the record {type, name, param} is prepended to
param_change_history with param the serialized copy of the definition;
function-valued condition and parser fields become their source text and
non-function ones pass through; a function-valued message becomes its source
text, and when message is not a function while message_to_confirm is one,
the source text of message_to_confirm is stored under message, leaving
message_to_confirm itself untouched; the reaction field is stringified
whenever truthy, even when it is not a function; fields outside these pass
through unchanged. -/
theorem C9_amended_change_log (ctx : Context) (t n : String) (p : LogParam) :
    (_save_param_change_log ctx t n p).param_change_history
      = ⟨t, n, serializeLogParam p⟩ :: ctx.param_change_history
  ∧ (∀ s, p.condition = some (.ffun s) →
      (serializeLogParam p).condition = some (.fstr s))
  ∧ ((∀ s, p.condition ≠ some (.ffun s)) →
      (serializeLogParam p).condition = p.condition)
  ∧ (∀ s, p.parser = some (.ffun s) →
      (serializeLogParam p).parser = some (.fstr s))
  ∧ ((∀ s, p.parser ≠ some (.ffun s)) →
      (serializeLogParam p).parser = p.parser)
  ∧ (∀ s, p.message = some (.ffun s) →
      (serializeLogParam p).message = some (.fstr s))
  ∧ (∀ s, (∀ u, p.message ≠ some (.ffun u)) →
      p.message_to_confirm = some (.ffun s) →
      (serializeLogParam p).message = some (.fstr s)
      ∧ (serializeLogParam p).message_to_confirm = some (.ffun s))
  ∧ (∀ v, p.reaction = some v → v.truthy = true →
      (serializeLogParam p).reaction = some (.fstr v.toStr))
  ∧ (serializeLogParam p).extra = p.extra := by
  have hm := stepMessage_preserves p
  have hcn := stepCondition_preserves (stepMessage p)
  have hpr := stepParser_preserves (stepCondition (stepMessage p))
  have hre := stepReaction_preserves
    (stepParser (stepCondition (stepMessage p)))
  refine ⟨rfl, ?_, ?_, ?_, ?_, ?_, ?_, ?_, ?_⟩
  · intro s hs
    have h1 : (stepMessage p).condition = some (.ffun s) := hm.1.trans hs
    have h2 := stepCondition_of_fun (stepMessage p) s h1
    unfold serializeLogParam
    rw [hre.2.1, hpr.2.1, h2]
  · intro hs
    have h1 : ∀ s, (stepMessage p).condition ≠ some (.ffun s) := by
      intro s
      rw [hm.1]
      exact hs s
    have h2 := stepCondition_of_not_fun (stepMessage p) h1
    unfold serializeLogParam
    rw [hre.2.1, hpr.2.1, h2, hm.1]
  · intro s hs
    have h1 : (stepParser (stepCondition (stepMessage p))).parser
        = some (.fstr s) :=
      stepParser_of_fun _ s ((hcn.2.1.trans hm.2.1).trans hs)
    unfold serializeLogParam
    rw [hre.2.2.1, h1]
  · intro hs
    have h1 : ∀ u, (stepCondition (stepMessage p)).parser ≠ some (.ffun u) := by
      intro u
      rw [hcn.2.1, hm.2.1]
      exact hs u
    have h2 := stepParser_of_not_fun _ h1
    unfold serializeLogParam
    rw [hre.2.2.1, h2, hcn.2.1, hm.2.1]
  · intro s hs
    have h1 := stepMessage_of_fun p s hs
    unfold serializeLogParam
    rw [hre.1, hpr.1, hcn.1, h1]
  · intro s hnm hc
    have h1 := stepMessage_of_mtc p s hnm hc
    constructor
    · unfold serializeLogParam
      rw [hre.1, hpr.1, hcn.1, h1]
    · unfold serializeLogParam
      rw [hre.2.2.2.1, hpr.2.2.2.1, hcn.2.2.2.1, hm.2.2.2.1, hc]
  · intro v hv ht
    have h1 : (stepParser (stepCondition (stepMessage p))).reaction = some v := by
      rw [hpr.2.2.1, hcn.2.2.1, hm.2.2.1, hv]
    unfold serializeLogParam
    exact stepReaction_of_truthy _ v h1 ht
  · unfold serializeLogParam
    rw [hre.2.2.2.2, hpr.2.2.2.2, hcn.2.2.2.2, hm.2.2.2.2]

/-- A definition record exercising every serialization branch. -/
def ex9b : LogParam :=
  { message := some (.fstr "m")
    condition := some (.ffun "cf")
    parser := some (.ffun "pf")
    reaction := some (.ffun "rf")
    extra := [("k", .fnum 1)] }

/-- Witness consuming C9 at a concrete record. -/
theorem C9_witness :
    (serializeLogParam ex9b).condition = some (.fstr "cf")
  ∧ (serializeLogParam ex9b).parser = some (.fstr "pf")
  ∧ (serializeLogParam ex9b).reaction = some (.fstr "rf")
  ∧ (serializeLogParam ex9b).extra = ex9b.extra
  ∧ (_save_param_change_log ex9Ctx "dynamic_parameter" "d" ex9b
      ).param_change_history
      = ⟨"dynamic_parameter", "d", serializeLogParam ex9b⟩ ::
          ex9Ctx.param_change_history :=
  ⟨(C9_amended_change_log ex9Ctx "dynamic_parameter" "d" ex9b).2.1 "cf" rfl,
   (C9_amended_change_log ex9Ctx "dynamic_parameter" "d" ex9b).2.2.2.1 "pf" rfl,
   (C9_amended_change_log ex9Ctx "dynamic_parameter" "d" ex9b
     ).2.2.2.2.2.2.2.1 (.ffun "rf") rfl rfl,
   (C9_amended_change_log ex9Ctx "dynamic_parameter" "d" ex9b).2.2.2.2.2.2.2.2,
   (C9_amended_change_log ex9Ctx "dynamic_parameter" "d" ex9b).1⟩

/-
Claim C1.
-/

/-- Classification and resolution read only the skill and the sub parameter
context, so they are stable under the commit bookkeeping. -/
theorem get_parameter_skill_congr (a b : Context) (n : String)
    (hs : b.skill = a.skill) (hsub : b._sub_parameter = a._sub_parameter)
    (hpar : b._parent_parameter = a._parent_parameter) :
    get_parameter b n = get_parameter a n := by
  unfold get_parameter check_parameter_type
  simp only [hs, hsub, hpar]

/-- A skill whose parameter param_b has a rejecting parser and a
reaction. -/
def ex1Skill : Skill :=
  { required_parameter := some
      [("param_b",
        { parser := some (.func "fnb" (fun _ => .reject "non-numeric"))
          reaction := some (.ffun "rb") })] }

def ex1Ctx : Context :=
  { skill := ex1Skill, to_confirm := ["param_b"], confirming := some "param_b" }

/-- C1 counterexample: the parser rejects "abc" for param_b, yet
apply_parameter with parse and react still commits the raw value:
confirmed.param_b is set to "abc" and param_b has left to_confirm, while the
reaction does receive the non-none error. -/
theorem C1_counterexample :
    (apply_parameter ex1Ctx "param_b" (.vstr "abc") true true
      ).2.confirmed.lookup "param_b" = some (.vstr "abc")
  ∧ (apply_parameter ex1Ctx "param_b" (.vstr "abc") true true).2.to_confirm = []
  ∧ (apply_parameter ex1Ctx "param_b" (.vstr "abc") true true).1
      = .done (some (.invokedDefReaction (some "non-numeric") (.vstr "abc"))) :=
  ⟨rfl, rfl, rfl⟩

/-- C1 amended: when the parser of a scalar parameter rejects the supplied
value during apply_parameter(name, value, parse, react), the rejected raw
value is nevertheless committed: confirmed[name] is set to it and the name
leaves to_confirm, and the reaction is invoked with the non-none parse
error. -/
theorem C1_amended_rejected_value_still_committed
    (ctx : Context) (n : String) (v : JsVal) (t : String) (param : ParamCore)
    (src m rsrc : String) (f : JsVal → ParseResult)
    (hget : get_parameter ctx n = .ok (t, param))
    (hp : param.parser = some (.func src f))
    (hrej : f v = .reject m)
    (hlist : param.list = .falsy)
    (hreact : param.reaction = some (.ffun rsrc))
    (hpause : ctx._pause = false) (hexit : ctx._exit = false)
    (hinit : ctx._init = false) :
    ∃ c2, apply_parameter ctx n v true true
        = (.done (some (.invokedDefReaction (some m) v)), c2)
      ∧ c2.confirmed.lookup n = some v
      ∧ c2.to_confirm = ctx.to_confirm.erase n := by
  have hparse : parse_parameter ctx n v false = (.thrown ⟨some "Error", m⟩, ctx) := by
    simp [parse_parameter, hget, hp, hrej, funcOutcome]
  have hadd : add_parameter ctx n v false = .ok (commitCtx ctx n v) := by
    simp [add_parameter, storedValue, hget, hlist, commitCtx]
  have hget2 : get_parameter (commitCtx ctx n v) n = .ok (t, param) := by
    rw [get_parameter_skill_congr ctx (commitCtx ctx n v) n rfl rfl rfl]
    exact hget
  have hflags : ((commitCtx ctx n v)._pause || (commitCtx ctx n v)._exit
      || (commitCtx ctx n v)._init) = false := by
    simp [commitCtx, hpause, hexit, hinit]
  have hreact2 : react (commitCtx ctx n v) (some m) n v
      = (.invokedDefReaction (some m) v, commitCtx ctx n v) := by
    simp [react, hflags, hget2, hreact, FVal.truthy]
  refine ⟨commitCtx ctx n v, ?_, ?_, rfl⟩
  · simp [apply_parameter, hparse, commitAndReact, hadd, hreact2]
  · simp [commitCtx, lookup_assocSet]

/-- Witness consuming C1 at the concrete rejecting skill. -/
theorem C1_witness :
    ∃ c2, apply_parameter ex1Ctx "param_b" (.vstr "abc") true true
        = (.done (some (.invokedDefReaction (some "non-numeric") (.vstr "abc"))), c2)
      ∧ c2.confirmed.lookup "param_b" = some (.vstr "abc")
      ∧ c2.to_confirm = ex1Ctx.to_confirm.erase "param_b" :=
  C1_amended_rejected_value_still_committed ex1Ctx "param_b" (.vstr "abc")
    "required_parameter"
    { parser := some (.func "fnb" (fun _ => .reject "non-numeric"))
      reaction := some (.ffun "rb") }
    "fnb" "non-numeric" "rb" (fun _ => .reject "non-numeric")
    rfl rfl rfl rfl rfl rfl rfl rfl

/-
Claim C10.
-/

/-- Writing a container back under one of the three container names makes it
the container that name resolves to. -/
theorem skillContainer_set (s : Skill) (t : String)
    (c : List (String × ParamDef))
    (ht : t = "required_parameter" ∨ t = "optional_parameter"
      ∨ t = "dynamic_parameter") :
    skillContainer (setSkillContainer s t c) t = some c := by
  rcases ht with h | h | h <;> subst h <;> simp [skillContainer, setSkillContainer]

/-- C10: parsing a parameter whose parser is an object lacking
policy.parameter_name mutates the parameter definition stored on the skill:
get_parameter hands out a shallow copy whose parser object is shared, so
after parse_parameter the stored definition carries
parser.policy.parameter_name = name, while the flow state of the context is
untouched; the parse itself delegates to the builtin registry under the
completed policy. -/
theorem C10_object_parser_policy_mutation (ctx : Context) (n : String)
    (v : JsVal) (t : String) (cont : List (String × ParamDef)) (d : ParamDef)
    (pt : String) (pol : Option Policy)
    (hct : check_parameter_type ctx n = t)
    (ht : t = "required_parameter" ∨ t = "optional_parameter"
      ∨ t = "dynamic_parameter")
    (hcont : skillContainer ctx.skill t = some cont)
    (hd : cont.lookup n = some d)
    (hp : d.parser = some (.pobj (some pt) pol))
    (hmiss : pol = none ∨ ∃ q, pol = some q
      ∧ (q.parameter_name = none ∨ q.parameter_name = some "")) :
    ∃ ctx', parse_parameter ctx n v false
        = (.builtinCall pt v ⟨some n, (pol.getD {}).rest⟩, ctx')
      ∧ (∃ cont', skillContainer ctx'.skill t = some cont'
          ∧ cont'.lookup n = some (d.withParser
              (.pobj (some pt) (some ⟨some n, (pol.getD {}).rest⟩))))
      ∧ ctx'.confirmed = ctx.confirmed
      ∧ ctx'.to_confirm = ctx.to_confirm
      ∧ ctx'.confirming = ctx.confirming := by
  have htna : (t == "not_applicable") = false := by
    rcases ht with h | h | h <;> subst h <;> decide
  have htsub : (t == "sub_parameter") = false := by
    rcases ht with h | h | h <;> subst h <;> decide
  have hget : get_parameter ctx n = .ok (t, d.toParamCore) := by
    unfold get_parameter
    rw [hct]
    simp [htna, htsub, hcont, hd]
  have hpc : d.toParamCore.parser = some (.pobj (some pt) pol) := hp
  have hupd : updateStoredParser ctx n
      (.pobj (some pt) (some ⟨some n, (pol.getD {}).rest⟩))
      = { ctx with skill := (setSkillContainer ctx.skill t
          (assocUpdate cont n (fun d0 => d0.withParser
            (.pobj (some pt) (some ⟨some n, (pol.getD {}).rest⟩))))) } := by
    unfold updateStoredParser
    rw [hct]
    simp [htsub, hcont]
  refine ⟨{ ctx with skill := (setSkillContainer ctx.skill t
      (assocUpdate cont n (fun d0 => d0.withParser
        (.pobj (some pt) (some ⟨some n, (pol.getD {}).rest⟩))))) },
    ?_, ?_, rfl, rfl, rfl⟩
  · show parse_parameter ctx n v false = _
    unfold parse_parameter
    rw [hget]
    rcases hmiss with h | ⟨q, hq, hqn⟩
    · subst h
      simp only [hpc]
      simp
      simpa using hupd
    · subst hq
      rcases hqn with h | h <;>
        (simp only [hpc]; simp [h]; simpa using hupd)
  · refine ⟨_, skillContainer_set ctx.skill t _ ht, ?_⟩
    rw [lookup_assocUpdate, hd]
    rfl

def ex10Skill : Skill :=
  { required_parameter := some
      [("pb", { parser := some (.pobj (some "dialogflow") none) })] }

def ex10Ctx : Context := { skill := ex10Skill }

/-- Witness consuming C10 at a concrete skill whose object parser has no
policy at all. -/
theorem C10_witness :
    ∃ ctx', parse_parameter ex10Ctx "pb" (.vstr "x") false
        = (.builtinCall "dialogflow" (.vstr "x")
            ⟨some "pb", ((none : Option Policy).getD {}).rest⟩, ctx')
      ∧ (∃ cont', skillContainer ctx'.skill "required_parameter" = some cont'
          ∧ cont'.lookup "pb" = some
              (ParamDef.withParser
                { parser := some (.pobj (some "dialogflow") none) }
                (.pobj (some "dialogflow")
                  (some ⟨some "pb", ((none : Option Policy).getD {}).rest⟩))))
      ∧ ctx'.confirmed = ex10Ctx.confirmed
      ∧ ctx'.to_confirm = ex10Ctx.to_confirm
      ∧ ctx'.confirming = ex10Ctx.confirming :=
  C10_object_parser_policy_mutation ex10Ctx "pb" (.vstr "x")
    "required_parameter"
    [("pb", { parser := some (.pobj (some "dialogflow") none) })]
    { parser := some (.pobj (some "dialogflow") none) }
    "dialogflow" none
    rfl (Or.inl rfl) rfl rfl rfl (Or.inl rfl)

end BotExpress
